import Mathlib

/-!
Verification of the sysfs PWM library (`src/lib.rs`, `src/error.rs`,
`src/async_pwm.rs`) against its natural-language specification.

The Rust library manipulates kernel state only through filesystem calls
(`fs::metadata`, `File::open`, `File::create`, `write_all`).  We embed it
shallowly: the kernel-resident sysfs state is a record `Sysfs`, every
filesystem primitive is a pure function `Sysfs → result × Sysfs` that also
appends the performed operation to an event log, and injectable environment
failures (`Env`) model `File::create` / `write_all` errors.  The synchronous
and asynchronous variants of the library share the same logic statement by
statement (the async variant merely adds discarded `sync_all` calls), so a
single embedding covers both.
-/

/-! ## Characters, decimal parsing and formatting -/

/-- ASCII digit test, as used by Rust integer parsing (`'0'..='9'`). -/
def isDigitCh (c : Char) : Bool := '0' ≤ c && c ≤ '9'

/-- One step of decimal accumulation: previous value times ten plus digit. -/
def digitStep (a : Nat) (c : Char) : Nat := a * 10 + (c.toNat - 48)

/-- Strip one leading `+` sign, as `u32::from_str` accepts. -/
def dropPlus (cs : List Char) : List Char :=
  match cs with
  | c :: rest => if c = '+' then rest else cs
  | [] => []

/-- Decimal parse of a character list following Rust `u32::from_str`:
optional leading `+`, then one or more ASCII digits, value below `2^32`
(overflow is a parse error).  No surrounding whitespace is accepted. -/
def parseU32Chars (cs : List Char) : Option Nat :=
  let ds := dropPlus cs
  if ds ≠ [] ∧ ds.all isDigitCh then
    let v := ds.foldl digitStep 0
    if v < 2 ^ 32 then some v else none
  else none

/-- Decimal parse of a string as Rust `str::parse::<u32>`. -/
def parseU32 (s : String) : Option Nat := parseU32Chars s.data

/-- The ASCII digit character for `n < 10` (other inputs unused). -/
def digitCh (n : Nat) : Char :=
  match n with
  | 0 => '0' | 1 => '1' | 2 => '2' | 3 => '3' | 4 => '4'
  | 5 => '5' | 6 => '6' | 7 => '7' | 8 => '8' | _ => '9'

/-- Fuel-driven decimal formatter: digits of `n` followed by `acc`. -/
def decReprAux : Nat → Nat → List Char → List Char
  | 0, _, acc => acc
  | fuel + 1, n, acc =>
    if n < 10 then digitCh n :: acc
    else decReprAux fuel (n / 10) (digitCh (n % 10) :: acc)

/-- Decimal representation of a natural number, as Rust `format!` of an
unsigned integer produces. -/
def decRepr (n : Nat) : String := ⟨decReprAux (n + 1) n []⟩

/-- Escape of one character as in Rust string `Debug` formatting (the
characters appearing in this development). -/
def escDebugChar (c : Char) : List Char :=
  if c = '\n' then ['\\', 'n']
  else if c = '\t' then ['\\', 't']
  else if c = '\r' then ['\\', 'r']
  else if c = '\\' then ['\\', '\\']
  else if c = '"' then ['\\', '"'] else [c]

/-- Rust `{:?}` formatting of a string: quoted, with escapes. -/
def rustDebugStr (s : String) : String :=
  ⟨'"' :: s.data.foldr (fun c acc => escDebugChar c ++ acc) ['"']⟩

/-- Rust `str::trim`: drop leading and trailing whitespace. -/
def rustTrim (s : String) : String :=
  ⟨((s.data.dropWhile Char.isWhitespace).reverse.dropWhile
      Char.isWhitespace).reverse⟩

/-- Accumulator for `splitWhitespaceL`: `cur` holds the current token
reversed. -/
def splitWSAux : List Char → List Char → List String
  | [], cur => if cur = [] then [] else [⟨cur.reverse⟩]
  | c :: rest, cur =>
    if c.isWhitespace then
      if cur = [] then splitWSAux rest []
      else ⟨cur.reverse⟩ :: splitWSAux rest []
    else splitWSAux rest (c :: cur)

/-- Rust `str::split_whitespace`: maximal non-whitespace runs, no empty
tokens. -/
def splitWhitespaceL (s : String) : List String := splitWSAux s.data []

/-! ## A model of IEEE-754 binary32 arithmetic

`Pwm::set_duty_cycle` computes `(period as f32 * duty_cycle).round() as u32`.
We model `f32` values by the exact rationals they denote.  `float32Round`
rounds a rational to 24 significant binary digits (round to nearest, ties to
even) — the rounding performed both by the `u32 → f32` cast and by `f32`
multiplication.  The model covers the normal finite range (all values
arising in the claims); sub-normals and overflow to infinity are outside the
magnitudes used here. -/

/-- Fuel-driven floor of the base-two logarithm of a positive rational. -/
def log2floorPos : Nat → Rat → Int → Int
  | 0, _, acc => acc
  | fuel + 1, q, acc =>
    if q < 1 then log2floorPos fuel (q * 2) (acc - 1)
    else if 2 ≤ q then log2floorPos fuel (q / 2) (acc + 1)
    else acc

/-- Power of two with integer exponent, as a rational. -/
def pow2 (e : Int) : Rat := (2 : Rat) ^ e

/-- Round a rational to an integer, ties to even. -/
def rndTiesEven (q : Rat) : Int :=
  let f := ⌊q⌋
  if q - f < 1 / 2 then f
  else if (1 : Rat) / 2 < q - f then f + 1
  else if f % 2 = 0 then f else f + 1

/-- Round a rational to the nearest IEEE-754 binary32 value (round to
nearest, ties to even, 24-bit significand). -/
def float32Round (q : Rat) : Rat :=
  if q = 0 then 0
  else
    let sgn : Rat := if q < 0 then -1 else 1
    let a : Rat := if q < 0 then -q else q
    let e : Int := log2floorPos 300 a 0 - 23
    sgn * (rndTiesEven (a * pow2 (-e)) : Rat) * pow2 e

/-- Rust `f32::round`: nearest integer, ties away from zero. -/
def roundHalfAway (q : Rat) : Int :=
  if q < 0 then -⌊-q + 1 / 2⌋ else ⌊q + 1 / 2⌋

/-- Rust saturating float-to-`u32` cast (`as u32`). -/
def asU32 (z : Int) : Nat :=
  if z < 0 then 0 else if (2 ^ 32 - 1 : Int) < z then 2 ^ 32 - 1 else z.toNat

/-- The nanosecond value computed by `Pwm::set_duty_cycle`:
`(period_ns as f32 * duty_cycle).round() as u32`, in the binary32 model. -/
def dutyCycleNsOf (period : Nat) (duty_cycle : Rat) : Nat :=
  asU32 (roundHalfAway (float32Round (float32Round (period : Rat) * duty_cycle)))

/-! ## The error type (`src/error.rs`) -/

/-- Embedding of `error::Error`.  `IoFailure` embeds the `Error::Io` variant
(carrying the display text of the wrapped `io::Error`); `Unexpected` embeds
`Error::Unexpected`. -/
inductive Error where
  | IoFailure : String → Error
  | Unexpected : String → Error
deriving DecidableEq

deriving instance DecidableEq for Except

/-- The `fmt::Display` implementation of `error::Error`. -/
def Error.display : Error → String
  | .IoFailure e => e
  | .Unexpected s => "Unexpected: " ++ s

/-! ## Filesystem paths and file identities -/

/-- Path of the controller base directory `/sys/class/pwm/pwmchipC`. -/
def pwmChipPath (c : Nat) : String := "/sys/class/pwm/pwmchip" ++ decRepr c

/-- Path of the per-line directory `/sys/class/pwm/pwmchipC/pwmN`. -/
def pwmDirPath (c n : Nat) : String := pwmChipPath c ++ "/pwm" ++ decRepr n

/-- Path of a per-line attribute file
`/sys/class/pwm/pwmchipC/pwmN/name`. -/
def pwmFilePath (c n : Nat) (name : String) : String :=
  pwmDirPath c n ++ "/" ++ name

/-- Path of the export control file. -/
def exportCtlPath (c : Nat) : String := pwmChipPath c ++ "/export"

/-- Path of the unexport control file. -/
def unexportCtlPath (c : Nat) : String := pwmChipPath c ++ "/unexport"

/-- Path of the channel-count attribute file. -/
def npwmPath (c : Nat) : String := pwmChipPath c ++ "/npwm"

/-- Identity of a directory the library probes with `fs::metadata`. -/
inductive DirId where
  | chipDir : Nat → DirId
  | pwmDir : Nat → Nat → DirId
deriving DecidableEq

/-- Path string of a probed directory. -/
def DirId.path : DirId → String
  | .chipDir c => pwmChipPath c
  | .pwmDir c n => pwmDirPath c n

/-- Identity of a file the library opens.  Like a kernel inode, the identity
is structural; the path string is derived from it. -/
inductive FileId where
  | exportCtl : Nat → FileId
  | unexportCtl : Nat → FileId
  | attr : Nat → Nat → String → FileId
  | npwmFile : Nat → FileId
deriving DecidableEq

/-- Path string of a file. -/
def FileId.path : FileId → String
  | .exportCtl c => exportCtlPath c
  | .unexportCtl c => unexportCtlPath c
  | .attr c n name => pwmFilePath c n name
  | .npwmFile c => npwmPath c

/-! ## The kernel-resident sysfs state and the failure environment -/

/-- One filesystem operation performed by the library, recorded in the event
log of `Sysfs` (the Boolean records whether the operation succeeded). -/
inductive FsOp where
  | metadata : String → Bool → FsOp
  | openRead : String → Bool → FsOp
  | openWrite : String → Bool → FsOp
  | create : String → Bool → FsOp
  | write : String → String → Bool → FsOp
deriving DecidableEq

/-- The kernel-resident PWM sysfs state: present controller chips, exported
(chip, channel) pairs, per-channel attribute file contents, per-chip `npwm`
contents, plus the log of filesystem operations performed so far. -/
structure Sysfs where
  chips : List Nat
  exported : List (Nat × Nat)
  attrs : List ((Nat × Nat × String) × String)
  npwm : List (Nat × String)
  log : List FsOp
deriving DecidableEq

/-- Injectable environment failures: paths on which `File::create`
respectively `write_all` fail. -/
structure Env where
  createFails : List String
  writeFails : List String
deriving DecidableEq

/-- Append one event to the log. -/
def Sysfs.logOp (st : Sysfs) (op : FsOp) : Sysfs :=
  { st with log := st.log ++ [op] }

/-- Display text of the not-found `io::Error`. -/
def notFoundMsg : String := "No such file or directory (os error 2)"

/-- Display text of the modeled `File::create` failure. -/
def createFailMsg : String := "Permission denied (os error 13)"

/-- Display text of the modeled `write_all` failure. -/
def writeFailMsg : String := "Input/output error (os error 5)"

/-- Whether `fs::metadata` succeeds on a probed directory. -/
def metadataOk (st : Sysfs) : DirId → Bool
  | .chipDir c => decide (c ∈ st.chips)
  | .pwmDir c n => decide ((c, n) ∈ st.exported)

/-- `fs::metadata` on a directory: returns success and logs the probe. -/
def fsMetadata (st : Sysfs) (d : DirId) : Bool × Sysfs :=
  let ok := metadataOk st d
  (ok, st.logOp (.metadata d.path ok))

/-- Contents of a readable file, when it exists.  Control files are
write-only. -/
def readFile (st : Sysfs) : FileId → Option String
  | .npwmFile c => (st.npwm.find? fun p => decide (p.1 = c)).map (·.2)
  | .attr c n name =>
    (st.attrs.find? fun a => decide (a.1 = (c, n, name))).map (·.2)
  | _ => none

/-- `File::open` followed by `read_to_string`: the contents on success, the
`io::Error` text on failure; logs the read. -/
def openAndRead (st : Sysfs) (f : FileId) : Except String String × Sysfs :=
  match readFile st f with
  | some s => (.ok s, st.logOp (.openRead f.path true))
  | none => (.error notFoundMsg, st.logOp (.openRead f.path false))

/-- `File::create` on a control file: succeeds unless the environment injects
a failure for its path; logs the attempt. -/
def fileCreate (env : Env) (st : Sysfs) (f : FileId) :
    Except String Unit × Sysfs :=
  if f.path ∈ env.createFails then
    (.error createFailMsg, st.logOp (.create f.path false))
  else (.ok (), st.logOp (.create f.path true))

/-- Insert a (chip, channel) pair if absent. -/
def insertPair (l : List (Nat × Nat)) (p : Nat × Nat) : List (Nat × Nat) :=
  if p ∈ l then l else p :: l

/-- Remove a (chip, channel) pair. -/
def removePair (l : List (Nat × Nat)) (p : Nat × Nat) : List (Nat × Nat) :=
  l.filter fun q => decide (q ≠ p)

/-- Modelled from the spec: the kernel reaction to a successful write
(§6 wire protocol, not part of the Rust sources).  Writing a decimal channel
index to the export control file claims the channel, writing it to the
unexport control file releases it, writing to an attribute file stores the
text; `npwm` is read-only. -/
def kernelWrite (st : Sysfs) (f : FileId) (data : String) : Sysfs :=
  match f with
  | .exportCtl c =>
    match parseU32 data with
    | some m => { st with exported := insertPair st.exported (c, m) }
    | none => st
  | .unexportCtl c =>
    match parseU32 data with
    | some m => { st with exported := removePair st.exported (c, m) }
    | none => st
  | .attr c n name =>
    { st with attrs := st.attrs.map fun a =>
        if a.1 = (c, n, name) then (a.1, data) else a }
  | .npwmFile _ => st

/-- `write_all` of `data` into an open file: fails if the environment injects
a failure for its path, otherwise applies the kernel reaction; logs the
attempt. -/
def writeAll (env : Env) (st : Sysfs) (f : FileId) (data : String) :
    Except String Unit × Sysfs :=
  if f.path ∈ env.writeFails then
    (.error writeFailMsg, st.logOp (.write f.path data false))
  else (.ok (), kernelWrite (st.logOp (.write f.path data true)) f data)

/-! ## The library (`src/lib.rs`)

Each Rust function becomes a pure function threading the `Sysfs` state.  The
embedding follows the source line by line; `let _ = ...` (a discarded
result) keeps the state transition but ignores the returned value. -/

/-- Embedding of `struct PwmChip`. -/
structure PwmChip where
  number : Nat
deriving DecidableEq

/-- Embedding of `struct Pwm`. -/
structure Pwm where
  chip : PwmChip
  number : Nat
deriving DecidableEq

/-- Outcome of an operation that may also panic (`get_enabled` contains an
explicit unreachable-value panic). -/
inductive PanicOr (α : Type) where
  | ok : α → PanicOr α
  | err : Error → PanicOr α
  | panicked : String → PanicOr α
deriving DecidableEq

/-- Embedding of `pwm_file_wo`: open an attribute entry write-only
(`OpenOptions::new().write(true).open(path)` opens an existing file, so it
succeeds exactly when the file exists). -/
def pwm_file_wo (st : Sysfs) (chip : PwmChip) (pin : Nat) (name : String) :
    Except Error FileId × Sysfs :=
  let f := FileId.attr chip.number pin name
  match readFile st f with
  | some _ => (.ok f, st.logOp (.openWrite f.path true))
  | none => (.error (.IoFailure notFoundMsg), st.logOp (.openWrite f.path false))

/-- Embedding of `pwm_file_parse::<u32>`: open the attribute read-only, read
it, trim, parse as `u32`; a parse failure is `Error::Unexpected` carrying the
debug-formatted raw text (the source misspells "Unexpeted"). -/
def pwm_file_parse_u32 (st : Sysfs) (chip : PwmChip) (pin : Nat)
    (name : String) : Except Error Nat × Sysfs :=
  match openAndRead st (FileId.attr chip.number pin name) with
  | (.error m, st1) => (.error (.IoFailure m), st1)
  | (.ok s, st1) =>
    match parseU32 (rustTrim s) with
    | some r => (.ok r, st1)
    | none =>
      (.error (.Unexpected ("Unexpeted value file contents: " ++ rustDebugStr s)),
       st1)

/-- Embedding of `pwm_capture_parse::<u32>`: read the attribute, trim, split
on whitespace, keep the tokens that parse as `u32`. -/
def pwm_capture_parse_u32 (st : Sysfs) (chip : PwmChip) (pin : Nat)
    (name : String) : Except Error (List Nat) × Sysfs :=
  match openAndRead st (FileId.attr chip.number pin name) with
  | (.error m, st1) => (.error (.IoFailure m), st1)
  | (.ok s, st1) =>
    (.ok ((splitWhitespaceL (rustTrim s)).filterMap parseU32), st1)

/-- Embedding of `PwmChip::new`: probe the controller base directory with
`fs::metadata`, propagating its error. -/
def PwmChip.new (st : Sysfs) (number : Nat) : Except Error PwmChip × Sysfs :=
  let pr := fsMetadata st (DirId.chipDir number)
  if pr.1 then (.ok ⟨number⟩, pr.2)
  else (.error (.IoFailure notFoundMsg), pr.2)

/-- Embedding of `PwmChip::count`: open and read `npwm`, then parse the raw
contents with `s.parse::<u32>()` — note the source does not trim. -/
def PwmChip.count (st : Sysfs) (chip : PwmChip) : Except Error Nat × Sysfs :=
  match openAndRead st (FileId.npwmFile chip.number) with
  | (.error m, st1) => (.error (.IoFailure m), st1)
  | (.ok s, st1) =>
    match parseU32 s with
    | some n => (.ok n, st1)
    | none =>
      (.error (.Unexpected ("Unexpected npwm contents: " ++ rustDebugStr s)), st1)

/-- Embedding of `PwmChip::export`: only export if not already exported
(`fs::metadata(...).is_err()`); then `File::create` the export control file
(propagating its error) and `write_all` the decimal channel index with the
result discarded (`let _ = ...`); return `Ok(())`. -/
def PwmChip.exportChannel (env : Env) (st : Sysfs) (chip : PwmChip)
    (number : Nat) : Except Error Unit × Sysfs :=
  let pr := fsMetadata st (DirId.pwmDir chip.number number)
  if pr.1 then (.ok (), pr.2)
  else
    match fileCreate env pr.2 (FileId.exportCtl chip.number) with
    | (.error m, st2) => (.error (.IoFailure m), st2)
    | (.ok _, st2) =>
      (.ok (), (writeAll env st2 (FileId.exportCtl chip.number)
                  (decRepr number)).2)

/-- Embedding of `PwmChip::unexport`: only act if the per-line directory
exists (`fs::metadata(...).is_ok()`); then `File::create` the unexport
control file (propagating its error) and `write_all` the decimal channel
index with the result discarded; return `Ok(())`. -/
def PwmChip.unexportChannel (env : Env) (st : Sysfs) (chip : PwmChip)
    (number : Nat) : Except Error Unit × Sysfs :=
  let pr := fsMetadata st (DirId.pwmDir chip.number number)
  if pr.1 then
    match fileCreate env pr.2 (FileId.unexportCtl chip.number) with
    | (.error m, st2) => (.error (.IoFailure m), st2)
    | (.ok _, st2) =>
      (.ok (), (writeAll env st2 (FileId.unexportCtl chip.number)
                  (decRepr number)).2)
  else (.ok (), pr.2)

/-- Embedding of `Pwm::new`: build the nested `PwmChip`, propagating its
error. -/
def Pwm.new (st : Sysfs) (chip number : Nat) : Except Error Pwm × Sysfs :=
  match PwmChip.new st chip with
  | (.error e, st1) => (.error e, st1)
  | (.ok c, st1) => (.ok ⟨c, number⟩, st1)

/-- Embedding of `Pwm::export`: delegate to the chip with this channel's
index. -/
def Pwm.doExport (env : Env) (st : Sysfs) (p : Pwm) :
    Except Error Unit × Sysfs :=
  PwmChip.exportChannel env st p.chip p.number

/-- Embedding of `Pwm::unexport`: delegate to the chip with this channel's
index. -/
def Pwm.doUnexport (env : Env) (st : Sysfs) (p : Pwm) :
    Except Error Unit × Sysfs :=
  PwmChip.unexportChannel env st p.chip p.number

/-- Embedding of `Pwm::with_exported`: export (propagating failure with
`?`), run the closure, then unexport; if both the closure and the unexport
fail, return `Error::Unexpected` wrapping both display texts. -/
def Pwm.with_exported (env : Env) (st : Sysfs) (p : Pwm)
    (closure : Sysfs → Except Error Unit × Sysfs) :
    Except Error Unit × Sysfs :=
  match Pwm.doExport env st p with
  | (.error e, st1) => (.error e, st1)
  | (.ok _, st1) =>
    match closure st1 with
    | (.ok _, st2) => Pwm.doUnexport env st2 p
    | (.error e, st2) =>
      match Pwm.doUnexport env st2 p with
      | (.ok _, st3) => (.error e, st3)
      | (.error ue, st3) =>
        (.error (.Unexpected ("Failed unexporting due to:\n" ++ ue.display ++
            "\nwhile handling:\n" ++ e.display)), st3)

/-- Embedding of `Pwm::get_enabled`: parse the `enable` attribute as `u32`;
`1` is true, `0` is false, any other parsed value panics
(`panic!("enable != 1|0 should be unreachable")`). -/
def Pwm.get_enabled (st : Sysfs) (p : Pwm) : PanicOr Bool × Sysfs :=
  match pwm_file_parse_u32 st p.chip p.number "enable" with
  | (.error e, st1) => (.err e, st1)
  | (.ok 1, st1) => (.ok true, st1)
  | (.ok 0, st1) => (.ok false, st1)
  | (.ok _, st1) => (.panicked "enable != 1|0 should be unreachable", st1)

/-- Embedding of `Pwm::get_capture`: two parsed tokens give the pair, any
other count is `Error::Unexpected("Failed exporting")` (message as in the
source). -/
def Pwm.get_capture (st : Sysfs) (p : Pwm) :
    Except Error (Nat × Nat) × Sysfs :=
  match pwm_capture_parse_u32 st p.chip p.number "capture" with
  | (.error e, st1) => (.error e, st1)
  | (.ok t, st1) =>
    match t with
    | [a, b] => (.ok (a, b), st1)
    | _ => (.error (.Unexpected "Failed exporting"), st1)

/-- Embedding of `Pwm::get_period_ns`. -/
def Pwm.get_period_ns (st : Sysfs) (p : Pwm) : Except Error Nat × Sysfs :=
  pwm_file_parse_u32 st p.chip p.number "period"

/-- Embedding of `Pwm::set_duty_cycle_ns`: open `duty_cycle` write-only and
write the decimal value, propagating both errors (`?`). -/
def Pwm.set_duty_cycle_ns (env : Env) (st : Sysfs) (p : Pwm)
    (duty_cycle_ns : Nat) : Except Error Unit × Sysfs :=
  match pwm_file_wo st p.chip p.number "duty_cycle" with
  | (.error e, st1) => (.error e, st1)
  | (.ok f, st1) =>
    match writeAll env st1 f (decRepr duty_cycle_ns) with
    | (.error m, st2) => (.error (.IoFailure m), st2)
    | (.ok _, st2) => (.ok (), st2)

/-- Embedding of `Pwm::set_duty_cycle`: read the period, compute
`(period as f32 * duty_cycle).round() as u32` in the binary32 model, and
delegate to `set_duty_cycle_ns`. -/
def Pwm.set_duty_cycle (env : Env) (st : Sysfs) (p : Pwm)
    (duty_cycle : Rat) : Except Error Unit × Sysfs :=
  match Pwm.get_period_ns st p with
  | (.error e, st1) => (.error e, st1)
  | (.ok period, st1) =>
    Pwm.set_duty_cycle_ns env st1 p (dutyCycleNsOf period duty_cycle)

/-! ## Concrete instances used by witnesses and counterexamples -/

/-- Channel 0 of chip 0. -/
def pwm00 : Pwm := ⟨⟨0⟩, 0⟩

/-- A state where chip 0 is present and nothing is exported. -/
def stBase : Sysfs := ⟨[0], [], [], [], []⟩

/-- An environment with no injected failures. -/
def envOk : Env := ⟨[], []⟩

/-- A closure that fails with a fixed error and leaves the state alone. -/
def clBoom : Sysfs → Except Error Unit × Sysfs :=
  fun st => (.error (.Unexpected "boom"), st)

/-- A closure that succeeds and leaves the state alone. -/
def clOk : Sysfs → Except Error Unit × Sysfs := fun st => (.ok (), st)

/-- Environment where writes to the unexport control file of chip 0 fail
(the failure the library silently discards). -/
def c1env : Env := ⟨[], [unexportCtlPath 0]⟩

/-- Environment where `File::create` on the unexport control file of chip 0
fails, so `unexport` itself returns an error. -/
def c2env : Env := ⟨[unexportCtlPath 0], []⟩

/-- State where chip 0 is present with `npwm` containing `"2\n"`. -/
def c3st : Sysfs := ⟨[0], [], [], [(0, "2\n")], []⟩

/-- State where channel 0 of chip 0 is already exported. -/
def c4stExp : Sysfs := ⟨[0], [(0, 0)], [], [], []⟩

/-- State whose `enable` attribute of channel (0,0) contains `"1\n"`. -/
def c6st : Sysfs := ⟨[0], [(0, 0)], [((0, 0, "enable"), "1\n")], [], []⟩

/-- State whose `enable` attribute contains `"0"`. -/
def c6st0 : Sysfs := ⟨[0], [(0, 0)], [((0, 0, "enable"), "0")], [], []⟩

/-- State whose `enable` attribute contains `"2\n"` (kernel-contract
violation). -/
def c6st2 : Sysfs := ⟨[0], [(0, 0)], [((0, 0, "enable"), "2\n")], [], []⟩

/-- State whose `capture` attribute contains `"1000 500"`. -/
def c7st : Sysfs := ⟨[0], [(0, 0)], [((0, 0, "capture"), "1000 500")], [], []⟩

/-- State whose `capture` attribute contains a single token. -/
def c7st1 : Sysfs := ⟨[0], [(0, 0)], [((0, 0, "capture"), "1000")], [], []⟩

/-- State whose `capture` attribute contains no parseable token. -/
def c7st0 : Sysfs := ⟨[0], [(0, 0)], [((0, 0, "capture"), "abc")], [], []⟩

/-- A state with no controller chips at all. -/
def c8st : Sysfs := ⟨[], [], [], [], []⟩

/-- State of an exported channel with period 20000 ns. -/
def c9st : Sysfs :=
  ⟨[0], [(0, 0)],
   [((0, 0, "period"), "20000\n"), ((0, 0, "duty_cycle"), "0")], [], []⟩

/-- State of an exported channel whose period `2^24 + 1` is not exactly
representable in binary32. -/
def c9xst : Sysfs :=
  ⟨[0], [(0, 0)],
   [((0, 0, "period"), "16777217"), ((0, 0, "duty_cycle"), "0")], [], []⟩

/-- Environment where every control-file write of chip 0 fails (but
`File::create` succeeds). -/
def c10env : Env := ⟨[], [exportCtlPath 0, unexportCtlPath 0]⟩

/-- Environment where `File::create` fails on both control files of
chip 0. -/
def c10cenv : Env := ⟨[exportCtlPath 0, unexportCtlPath 0], []⟩

/-! ## Helper lemmas: decimal formatting round-trips through parsing -/

theorem decReprAux_append (fuel : Nat) :
    ∀ n acc, decReprAux fuel n acc = decReprAux fuel n [] ++ acc := by
  induction fuel with
  | zero => intro n acc; simp [decReprAux]
  | succ fuel ih =>
    intro n acc
    by_cases h : n < 10
    · simp [decReprAux, h]
    · simp only [decReprAux, if_neg h]
      rw [ih (n / 10) (digitCh (n % 10) :: acc), ih (n / 10) [digitCh (n % 10)]]
      simp

theorem digitCh_toNat {m : Nat} (h : m < 10) : (digitCh m).toNat = 48 + m := by
  interval_cases m <;> decide

theorem digitCh_digit {m : Nat} (h : m < 10) : isDigitCh (digitCh m) = true := by
  interval_cases m <;> decide

theorem decReprAux_digits (fuel : Nat) :
    ∀ n acc, (∀ c ∈ acc, isDigitCh c) →
      ∀ c ∈ decReprAux fuel n acc, isDigitCh c := by
  induction fuel with
  | zero => intro n acc hacc; simpa [decReprAux] using hacc
  | succ fuel ih =>
    intro n acc hacc c hc
    by_cases h : n < 10
    · simp only [decReprAux, if_pos h] at hc
      rcases List.mem_cons.1 hc with rfl | hmem
      · exact digitCh_digit h
      · exact hacc c hmem
    · simp only [decReprAux, if_neg h] at hc
      refine ih (n / 10) _ ?_ c hc
      intro c' hc'
      rcases List.mem_cons.1 hc' with rfl | hmem
      · exact digitCh_digit (Nat.mod_lt _ (by omega))
      · exact hacc c' hmem

theorem decReprAux_ne_nil (fuel : Nat) :
    ∀ n acc, n < fuel → decReprAux fuel n acc ≠ [] := by
  induction fuel with
  | zero => intro n acc h; omega
  | succ fuel ih =>
    intro n acc h
    by_cases h10 : n < 10
    · simp [decReprAux, h10]
    · simp only [decReprAux, if_neg h10]
      have hdiv : n / 10 < n := Nat.div_lt_self (by omega) (by omega)
      exact ih (n / 10) _ (by omega)

theorem decReprAux_val (fuel : Nat) :
    ∀ n a, n < fuel →
      List.foldl digitStep a (decReprAux fuel n []) =
        a * 10 ^ (decReprAux fuel n []).length + n := by
  induction fuel with
  | zero => intro n a h; omega
  | succ fuel ih =>
    intro n a hn
    by_cases h : n < 10
    · simp [decReprAux, h, digitStep, digitCh_toNat h]
    · have hdiv : n / 10 < n := Nat.div_lt_self (by omega) (by omega)
      have hfuel : n / 10 < fuel := by omega
      have hmod : n % 10 < 10 := Nat.mod_lt _ (by omega)
      simp only [decReprAux, if_neg h]
      rw [decReprAux_append fuel (n / 10) [digitCh (n % 10)]]
      rw [List.foldl_append]
      simp only [List.foldl, digitStep, digitCh_toNat hmod, List.length_append,
        List.length_singleton]
      rw [ih (n / 10) a hfuel]
      rw [pow_succ, ← mul_assoc]
      generalize a * 10 ^ (decReprAux fuel (n / 10) []).length = K
      omega

theorem parseU32_decRepr (n : Nat) :
    parseU32 (decRepr n) = if n < 2 ^ 32 then some n else none := by
  have hne : decReprAux (n + 1) n [] ≠ [] :=
    decReprAux_ne_nil (n + 1) n [] (by omega)
  have hdig : ∀ c ∈ decReprAux (n + 1) n [], isDigitCh c :=
    decReprAux_digits (n + 1) n [] (by simp)
  have hval : List.foldl digitStep 0 (decReprAux (n + 1) n []) = n := by
    have h := decReprAux_val (n + 1) n 0 (by omega)
    simpa using h
  show parseU32Chars (decReprAux (n + 1) n []) = _
  obtain ⟨c, t, hct⟩ := List.exists_cons_of_ne_nil hne
  have hcdig : isDigitCh c := hdig c (by rw [hct]; exact List.mem_cons_self c t)
  have hcne : ¬ c = '+' := by
    intro he; rw [he] at hcdig; exact absurd hcdig (by decide)
  rw [hct] at hdig hval ⊢
  simp only [parseU32Chars, dropPlus, if_neg hcne]
  have hall : (c :: t).all isDigitCh = true := List.all_eq_true.2 hdig
  simp [hall, hval]

theorem insertPair_mem (l : List (Nat × Nat)) (p : Nat × Nat) :
    p ∈ insertPair l p := by
  by_cases h : p ∈ l <;> simp [insertPair, h]

theorem removePair_not_mem (l : List (Nat × Nat)) (p : Nat × Nat) :
    p ∉ removePair l p := by
  simp [removePair]

/-! ## Claim C3: `channel_count` on `npwm` containing a trailing newline -/

/-- C3.  The spec scenario says `npwm = "2\n"` yields `channel_count() = 2`
and that attribute reads are newline-insensitive.  The code violates this:
`PwmChip::count` parses the raw contents without trimming, so `"2\n"` fails
to parse and `count` returns an `Unexpected`-class error.  The second
conjunct shows the trimmed contents do parse as `2`, i.e. the trimming the
other readers perform (and the spec promises) would have produced `2`. -/
theorem count_rejects_trailing_newline :
    (PwmChip.count c3st ⟨0⟩).1 =
      .error (.Unexpected "Unexpected npwm contents: \"2\\n\"")
    ∧ parseU32 (rustTrim "2\n") = some 2
    ∧ parseU32 "2\n" = none := by
  decide

/-! ## Claim C8: construction on an absent controller -/

/-- C8.  For every chip index not present in the kernel state, the existence
probe fails, `PwmChip::new` (and hence `Pwm::new`) returns an
`IoFailure`-class not-found error, and the log extension shows the probe was
the only filesystem operation performed — no attribute file is read or
written. -/
theorem chip_new_absent_fails (st : Sysfs) (c : Nat) (h : c ∉ st.chips) :
    PwmChip.new st c =
      (.error (.IoFailure notFoundMsg),
       st.logOp (.metadata (pwmChipPath c) false))
    ∧ ∀ n, Pwm.new st c n =
      (.error (.IoFailure notFoundMsg),
       st.logOp (.metadata (pwmChipPath c) false)) := by
  have hdec : metadataOk st (DirId.chipDir c) = false := by
    simp [metadataOk, h]
  constructor
  · simp [PwmChip.new, fsMetadata, hdec, DirId.path]
  · intro n
    simp [Pwm.new, PwmChip.new, fsMetadata, hdec, DirId.path]

/-- Witness for C8 at chip index 0 in a state with no chips. -/
theorem chip_new_absent_fails_witness :
    PwmChip.new c8st 0 =
      (.error (.IoFailure notFoundMsg),
       c8st.logOp (.metadata (pwmChipPath 0) false))
    ∧ Pwm.new c8st 0 0 =
      (.error (.IoFailure notFoundMsg),
       c8st.logOp (.metadata (pwmChipPath 0) false)) := by
  have h := chip_new_absent_fails c8st 0 (by decide)
  exact ⟨h.1, h.2 0⟩

/-! ## Claim C2: double failure produces a compound error -/

/-- C2.  If the closure fails with `e` and the subsequent unexport fails
with `ue`, `with_exported` returns the compound `Unexpected` error whose
message wraps the display texts of both underlying failures (so neither is
lost), exactly as `Error::Unexpected(format!("Failed unexporting due
to:\n{}\nwhile handling:\n{}", ue, e))` produces. -/
theorem withExported_double_failure_compound
    (env : Env) (st st1 st2 st3 : Sysfs) (p : Pwm)
    (cl : Sysfs → Except Error Unit × Sysfs) (e ue : Error)
    (hexp : Pwm.doExport env st p = (.ok (), st1))
    (hcl : cl st1 = (.error e, st2))
    (hue : Pwm.doUnexport env st2 p = (.error ue, st3)) :
    Pwm.with_exported env st p cl =
      (.error (.Unexpected ("Failed unexporting due to:\n" ++ ue.display ++
        "\nwhile handling:\n" ++ e.display)), st3)
    ∧ ∃ pre mid, "Failed unexporting due to:\n" ++ ue.display ++
        "\nwhile handling:\n" ++ e.display =
        pre ++ ue.display ++ mid ++ e.display := by
  refine ⟨?_, "Failed unexporting due to:\n", "\nwhile handling:\n", rfl⟩
  unfold Pwm.with_exported
  simp only [hexp, hcl, hue]

/-- Witness for C2: with `File::create` failing on the unexport control
file, both the closure error and the unexport error appear in the returned
compound message. -/
theorem withExported_double_failure_compound_witness :
    (Pwm.with_exported c2env stBase pwm00 clBoom).1 =
      .error (.Unexpected ("Failed unexporting due to:\n" ++ createFailMsg ++
        "\nwhile handling:\n" ++ "Unexpected: boom")) := by
  have h := withExported_double_failure_compound c2env stBase
    ((Pwm.doExport c2env stBase pwm00).2)
    ((clBoom ((Pwm.doExport c2env stBase pwm00).2)).2)
    ((Pwm.doUnexport c2env
        ((clBoom ((Pwm.doExport c2env stBase pwm00).2)).2) pwm00).2)
    pwm00 clBoom (.Unexpected "boom") (.IoFailure createFailMsg)
    (by decide) (by decide) (by decide)
  rw [h.1]
  rfl

/-! ## Claim C10: control-file write errors are silently discarded -/

/-- C10.  When the channel is not exported (resp. exported) and the export
(resp. unexport) control file can be created, `export` (resp. `unexport`)
returns success with no hypothesis on the environment's write failures —
the `write_all` result is discarded.  Only a `File::create` failure is
reported, as an I/O error. -/
theorem export_write_error_discarded (env : Env) (st : Sysfs) (c n : Nat) :
    ((c, n) ∉ st.exported → exportCtlPath c ∉ env.createFails →
      (PwmChip.exportChannel env st ⟨c⟩ n).1 = .ok ())
    ∧ ((c, n) ∉ st.exported → exportCtlPath c ∈ env.createFails →
      (PwmChip.exportChannel env st ⟨c⟩ n).1 =
        .error (.IoFailure createFailMsg))
    ∧ ((c, n) ∈ st.exported → unexportCtlPath c ∉ env.createFails →
      (PwmChip.unexportChannel env st ⟨c⟩ n).1 = .ok ())
    ∧ ((c, n) ∈ st.exported → unexportCtlPath c ∈ env.createFails →
      (PwmChip.unexportChannel env st ⟨c⟩ n).1 =
        .error (.IoFailure createFailMsg)) := by
  refine ⟨fun h hc => ?_, fun h hc => ?_, fun h hc => ?_, fun h hc => ?_⟩
  · simp only [PwmChip.exportChannel, fsMetadata, metadataOk, fileCreate,
      writeAll, FileId.path]
    simp [h, hc]
  · simp only [PwmChip.exportChannel, fsMetadata, metadataOk, fileCreate,
      FileId.path]
    simp [h, hc]
  · simp only [PwmChip.unexportChannel, fsMetadata, metadataOk, fileCreate,
      writeAll, FileId.path]
    simp [h, hc]
  · simp only [PwmChip.unexportChannel, fsMetadata, metadataOk, fileCreate,
      FileId.path]
    simp [h, hc]

/-- Witness for C10: with write failures injected on both control files of
chip 0 (`c10env`), export of a fresh channel and unexport of an exported
channel both return success; with `File::create` failing (`c10cenv`) both
report the I/O error. -/
theorem export_write_error_discarded_witness :
    (PwmChip.exportChannel c10env stBase ⟨0⟩ 0).1 = .ok ()
    ∧ (PwmChip.unexportChannel c10env c4stExp ⟨0⟩ 0).1 = .ok ()
    ∧ (PwmChip.exportChannel c10cenv stBase ⟨0⟩ 0).1 =
        .error (.IoFailure createFailMsg)
    ∧ (PwmChip.unexportChannel c10cenv c4stExp ⟨0⟩ 0).1 =
        .error (.IoFailure createFailMsg) := by
  refine ⟨?_, ?_, ?_, ?_⟩
  · exact (export_write_error_discarded c10env stBase 0 0).1
      (by decide) (by decide)
  · exact (export_write_error_discarded c10env c4stExp 0 0).2.2.1
      (by decide) (by decide)
  · exact (export_write_error_discarded c10cenv stBase 0 0).2.1
      (by decide) (by decide)
  · exact (export_write_error_discarded c10cenv c4stExp 0 0).2.2.2
      (by decide) (by decide)

/-! ## Claim C6: `get_enabled` semantics -/

/-- C6.  For any contents of the `enable` attribute file: a trimmed parse of
`1` yields `true`, of `0` yields `false`, and any other parsed integer is
the explicit panic `enable != 1|0 should be unreachable` — an unrecoverable
internal-invariant violation, not an error return. -/
theorem get_enabled_spec (st : Sysfs) (p : Pwm) (s : String)
    (h : readFile st (FileId.attr p.chip.number p.number "enable") = some s) :
    (parseU32 (rustTrim s) = some 1 → (Pwm.get_enabled st p).1 = .ok true)
    ∧ (parseU32 (rustTrim s) = some 0 → (Pwm.get_enabled st p).1 = .ok false)
    ∧ (∀ v, parseU32 (rustTrim s) = some v → v ≠ 0 → v ≠ 1 →
        (Pwm.get_enabled st p).1 =
          .panicked "enable != 1|0 should be unreachable") := by
  refine ⟨fun hp => ?_, fun hp => ?_, fun v hp h0 h1 => ?_⟩
  · simp only [Pwm.get_enabled, pwm_file_parse_u32, openAndRead, h, hp]
  · simp only [Pwm.get_enabled, pwm_file_parse_u32, openAndRead, h, hp]
  · obtain ⟨k, rfl⟩ : ∃ k, v = k + 2 := ⟨v - 2, by omega⟩
    simp only [Pwm.get_enabled, pwm_file_parse_u32, openAndRead, h, hp]

/-- Witness for C6: contents `"1\n"` give `true`, `"0"` gives `false`, and
the out-of-contract contents `"2\n"` give the panic. -/
theorem get_enabled_spec_witness :
    (Pwm.get_enabled c6st pwm00).1 = .ok true
    ∧ (Pwm.get_enabled c6st0 pwm00).1 = .ok false
    ∧ (Pwm.get_enabled c6st2 pwm00).1 =
        .panicked "enable != 1|0 should be unreachable" := by
  refine ⟨?_, ?_, ?_⟩
  · exact (get_enabled_spec c6st pwm00 "1\n" (by decide)).1 (by decide)
  · exact (get_enabled_spec c6st0 pwm00 "0" (by decide)).2.1 (by decide)
  · exact (get_enabled_spec c6st2 pwm00 "2\n" (by decide)).2.2 2
      (by decide) (by decide) (by decide)

/-! ## Claim C7: `get_capture` semantics -/

/-- C7.  For any contents of the `capture` attribute file: when exactly two
whitespace-separated tokens parse as unsigned integers the parsed pair is
returned, and whenever the number of parseable tokens is not two the result
is the `Unexpected`-class error. -/
theorem get_capture_spec (st : Sysfs) (p : Pwm) (s : String)
    (h : readFile st (FileId.attr p.chip.number p.number "capture") = some s) :
    (∀ a b, (splitWhitespaceL (rustTrim s)).filterMap parseU32 = [a, b] →
      (Pwm.get_capture st p).1 = .ok (a, b))
    ∧ (((splitWhitespaceL (rustTrim s)).filterMap parseU32).length ≠ 2 →
      (Pwm.get_capture st p).1 = .error (.Unexpected "Failed exporting")) := by
  constructor
  · intro a b hp
    simp only [Pwm.get_capture, pwm_capture_parse_u32, openAndRead, h, hp]
  · intro hlen
    simp only [Pwm.get_capture, pwm_capture_parse_u32, openAndRead, h]
    rcases hl : (splitWhitespaceL (rustTrim s)).filterMap parseU32 with
      _ | ⟨a, _ | ⟨b, _ | ⟨c, t⟩⟩⟩
    · rfl
    · rfl
    · rw [hl] at hlen; simp at hlen
    · rfl

/-- Witness for C7: `"1000 500"` yields the pair `(1000, 500)`; a single
token and unparseable contents both yield the `Unexpected` error. -/
theorem get_capture_spec_witness :
    (Pwm.get_capture c7st pwm00).1 = .ok (1000, 500)
    ∧ (Pwm.get_capture c7st1 pwm00).1 =
        .error (.Unexpected "Failed exporting")
    ∧ (Pwm.get_capture c7st0 pwm00).1 =
        .error (.Unexpected "Failed exporting") := by
  refine ⟨?_, ?_, ?_⟩
  · exact (get_capture_spec c7st pwm00 "1000 500" (by decide)).1 1000 500
      (by decide)
  · exact (get_capture_spec c7st1 pwm00 "1000" (by decide)).2 (by decide)
  · exact (get_capture_spec c7st0 pwm00 "abc" (by decide)).2 (by decide)

/-! ## Claims C4 and C5: export/unexport idempotence -/

theorem exportChannel_exported (env : Env) (st : Sysfs) (c n : Nat) :
    (PwmChip.exportChannel env st ⟨c⟩ n).2.exported =
      if (c, n) ∈ st.exported then st.exported
      else if exportCtlPath c ∈ env.createFails then st.exported
      else if exportCtlPath c ∈ env.writeFails then st.exported
      else if n < 2 ^ 32 then insertPair st.exported (c, n)
      else st.exported := by
  simp only [PwmChip.exportChannel, fsMetadata, metadataOk, fileCreate,
    writeAll, kernelWrite, FileId.path, Sysfs.logOp, parseU32_decRepr]
  by_cases h1 : (c, n) ∈ st.exported
  · simp [h1]
  · by_cases h2 : exportCtlPath c ∈ env.createFails
    · simp [h1, h2]
    · by_cases h3 : exportCtlPath c ∈ env.writeFails
      · simp [h1, h2, h3]
      · by_cases h4 : n < 2 ^ 32
        · have h4l : n < 4294967296 := h4
          simp [h1, h2, h3, h4l]
        · have h4l : ¬ n < 4294967296 := h4
          simp [h1, h2, h3, h4l]

/-- C4.  `export` is idempotent: on an already exported channel it performs
no filesystem operation beyond the existence probe and returns success
(first conjunct, the final log grows only by the probe event); on a fresh
channel with a creatable control file it writes the decimal channel index to
the export control file (second conjunct, the write event carries
`decRepr n`); and running export twice leaves exactly the exported state of
running it once (third conjunct, for every environment). -/
theorem export_idempotent (env : Env) (st : Sysfs) (c n : Nat) :
    ((c, n) ∈ st.exported →
      PwmChip.exportChannel env st ⟨c⟩ n =
        (.ok (), st.logOp (.metadata (pwmDirPath c n) true)))
    ∧ ((c, n) ∉ st.exported → exportCtlPath c ∉ env.createFails →
        (PwmChip.exportChannel env st ⟨c⟩ n).1 = .ok ()
        ∧ (PwmChip.exportChannel env st ⟨c⟩ n).2.log =
          st.log ++ [.metadata (pwmDirPath c n) false,
                     .create (exportCtlPath c) true,
                     .write (exportCtlPath c) (decRepr n)
                       (decide (exportCtlPath c ∉ env.writeFails))])
    ∧ (PwmChip.exportChannel env
        (PwmChip.exportChannel env st ⟨c⟩ n).2 ⟨c⟩ n).2.exported =
      (PwmChip.exportChannel env st ⟨c⟩ n).2.exported := by
  refine ⟨fun h => ?_, fun h hc => ?_, ?_⟩
  · simp only [PwmChip.exportChannel, fsMetadata, metadataOk, DirId.path]
    simp [h]
  · simp only [PwmChip.exportChannel, fsMetadata, metadataOk, fileCreate,
      writeAll, kernelWrite, FileId.path, Sysfs.logOp, DirId.path,
      parseU32_decRepr]
    by_cases h3 : exportCtlPath c ∈ env.writeFails
    · simp [h, hc, h3, List.append_assoc]
    · by_cases h4 : n < 2 ^ 32
      · have h4l : n < 4294967296 := h4
        simp [h, hc, h3, h4l, List.append_assoc]
      · have h4l : ¬ n < 4294967296 := h4
        simp [h, hc, h3, h4l, List.append_assoc]
  · rw [exportChannel_exported env (PwmChip.exportChannel env st ⟨c⟩ n).2 c n,
      exportChannel_exported env st c n]
    by_cases h1 : (c, n) ∈ st.exported
    · simp [h1]
    · by_cases h2 : exportCtlPath c ∈ env.createFails
      · simp [h1, h2]
      · by_cases h3 : exportCtlPath c ∈ env.writeFails
        · simp [h1, h2, h3]
        · by_cases h4 : n < 2 ^ 32
          · have h4l : n < 4294967296 := h4
            simp [h1, h2, h3, h4l, insertPair_mem st.exported (c, n)]
          · have h4l : ¬ n < 4294967296 := h4
            simp [h1, h2, h3, h4l]

/-- Witness for C4, covering all three conjuncts: on `c4stExp` (channel
already exported) the call is a probe-only no-op returning success; on
`stBase` (fresh channel) it returns success and logs probe, create and the
decimal write `"0"`; and export twice equals export once on the exported
state. -/
theorem export_idempotent_witness :
    PwmChip.exportChannel envOk c4stExp ⟨0⟩ 0 =
      (.ok (), c4stExp.logOp (.metadata (pwmDirPath 0 0) true))
    ∧ (PwmChip.exportChannel envOk stBase ⟨0⟩ 0).1 = .ok ()
    ∧ (PwmChip.exportChannel envOk stBase ⟨0⟩ 0).2.log =
      stBase.log ++ [.metadata (pwmDirPath 0 0) false,
                     .create (exportCtlPath 0) true,
                     .write (exportCtlPath 0) (decRepr 0)
                       (decide (exportCtlPath 0 ∉ envOk.writeFails))]
    ∧ (PwmChip.exportChannel envOk
        (PwmChip.exportChannel envOk stBase ⟨0⟩ 0).2 ⟨0⟩ 0).2.exported =
      (PwmChip.exportChannel envOk stBase ⟨0⟩ 0).2.exported := by
  have h1 := export_idempotent envOk c4stExp 0 0
  have h2 := export_idempotent envOk stBase 0 0
  exact ⟨h1.1 (by decide), (h2.2.1 (by decide) (by decide)).1,
    (h2.2.1 (by decide) (by decide)).2, h2.2.2⟩

/-- C5.  `unexport` is idempotent: on a channel that is not exported it
performs no filesystem operation beyond the existence probe and returns
success; on an exported channel with a creatable control file it returns
success and writes the decimal channel index to the unexport control
file. -/
theorem unexport_idempotent (env : Env) (st : Sysfs) (c n : Nat) :
    ((c, n) ∉ st.exported →
      PwmChip.unexportChannel env st ⟨c⟩ n =
        (.ok (), st.logOp (.metadata (pwmDirPath c n) false)))
    ∧ ((c, n) ∈ st.exported → unexportCtlPath c ∉ env.createFails →
        (PwmChip.unexportChannel env st ⟨c⟩ n).1 = .ok ()
        ∧ (PwmChip.unexportChannel env st ⟨c⟩ n).2.log =
          st.log ++ [.metadata (pwmDirPath c n) true,
                     .create (unexportCtlPath c) true,
                     .write (unexportCtlPath c) (decRepr n)
                       (decide (unexportCtlPath c ∉ env.writeFails))]) := by
  refine ⟨fun h => ?_, fun h hc => ?_⟩
  · simp only [PwmChip.unexportChannel, fsMetadata, metadataOk, DirId.path]
    simp [h]
  · simp only [PwmChip.unexportChannel, fsMetadata, metadataOk, fileCreate,
      writeAll, kernelWrite, FileId.path, Sysfs.logOp, DirId.path,
      parseU32_decRepr]
    by_cases h3 : unexportCtlPath c ∈ env.writeFails
    · simp [h, hc, h3, List.append_assoc]
    · by_cases h4 : n < 2 ^ 32
      · have h4l : n < 4294967296 := h4
        simp [h, hc, h3, h4l, List.append_assoc]
      · have h4l : ¬ n < 4294967296 := h4
        simp [h, hc, h3, h4l, List.append_assoc]

/-- Witness for C5: unexporting the non-exported channel of `stBase` is a
probe-only no-op returning success; unexporting the exported channel of
`c4stExp` returns success and logs probe, create and the decimal write. -/
theorem unexport_idempotent_witness :
    PwmChip.unexportChannel envOk stBase ⟨0⟩ 0 =
      (.ok (), stBase.logOp (.metadata (pwmDirPath 0 0) false))
    ∧ (PwmChip.unexportChannel envOk c4stExp ⟨0⟩ 0).1 = .ok ()
    ∧ (PwmChip.unexportChannel envOk c4stExp ⟨0⟩ 0).2.log =
      c4stExp.log ++ [.metadata (pwmDirPath 0 0) true,
                      .create (unexportCtlPath 0) true,
                      .write (unexportCtlPath 0) (decRepr 0)
                        (decide (unexportCtlPath 0 ∉ envOk.writeFails))] := by
  have h1 := unexport_idempotent envOk stBase 0 0
  have h2 := unexport_idempotent envOk c4stExp 0 0
  exact ⟨h1.1 (by decide), (h2.2 (by decide) (by decide)).1,
    (h2.2 (by decide) (by decide)).2⟩

/-! ## Claim C1: the scoped-acquisition guarantee -/

/-- Counterexample to C1 as stated.  In `c1env` the write to the unexport
control file fails and `unexport` silently discards that failure: the
closure fails with `boom`, the subsequent unexport call returns success
(second conjunct), the returned error equals the closure's error (first
conjunct) — yet the channel is still exported when `with_exported` returns
(third conjunct), contradicting "the channel is unexported before the call
returns". -/
theorem withExported_silent_unexport_failure_counterexample :
    (Pwm.with_exported c1env stBase pwm00 clBoom).1 =
      .error (.Unexpected "boom")
    ∧ (Pwm.doUnexport c1env
        ((clBoom ((Pwm.doExport c1env stBase pwm00).2)).2) pwm00).1 = .ok ()
    ∧ (0, 0) ∈ (Pwm.with_exported c1env stBase pwm00 clBoom).2.exported := by
  decide

theorem unexportChannel_release (env : Env) (st : Sysfs) (c n : Nat)
    (hn : n < 2 ^ 32) (hw : unexportCtlPath c ∉ env.writeFails)
    (hok : (PwmChip.unexportChannel env st ⟨c⟩ n).1 = .ok ()) :
    (c, n) ∉ (PwmChip.unexportChannel env st ⟨c⟩ n).2.exported := by
  simp only [PwmChip.unexportChannel, fsMetadata, metadataOk, fileCreate,
    writeAll, kernelWrite, FileId.path, Sysfs.logOp, parseU32_decRepr]
    at hok ⊢
  by_cases h1 : (c, n) ∈ st.exported
  · by_cases h2 : unexportCtlPath c ∈ env.createFails
    · simp [h1, h2] at hok
    · have h4l : n < 4294967296 := hn
      simp [h1, h2, hw, h4l]
      exact removePair_not_mem st.exported (c, n)
  · simp only [h1, if_neg] at hok ⊢
    simp [h1]

/-- C1, amended.  If the export succeeded, then: (a) when the closure fails
and the subsequent unexport call returns success, `with_exported` returns
exactly the closure's error, and — provided the unexport control-file write
is not one the library silently discards after failure — the channel is no
longer exported in the final state; (b) when the closure succeeds, the
result of `with_exported` is exactly the result of the unexport attempt.
(The unamended claim also asserted the channel is unexported whenever the
unexport call merely returns success; the counterexample shows the silent
`write_all` discard breaks that reading.) -/
theorem withExported_release_and_error_propagation
    (env : Env) (st st1 : Sysfs) (p : Pwm)
    (cl : Sysfs → Except Error Unit × Sysfs)
    (hexp : Pwm.doExport env st p = (.ok (), st1)) :
    (∀ e st2, cl st1 = (.error e, st2) →
      (Pwm.doUnexport env st2 p).1 = .ok () →
      (Pwm.with_exported env st p cl).1 = .error e
      ∧ (unexportCtlPath p.chip.number ∉ env.writeFails →
          p.number < 2 ^ 32 →
          (p.chip.number, p.number) ∉
            (Pwm.with_exported env st p cl).2.exported))
    ∧ (∀ st2, cl st1 = (.ok (), st2) →
        Pwm.with_exported env st p cl = Pwm.doUnexport env st2 p) := by
  constructor
  · intro e st2 hcl hue
    rcases hu : Pwm.doUnexport env st2 p with ⟨r, st3⟩
    rw [hu] at hue
    simp only at hue
    subst hue
    have hwe : Pwm.with_exported env st p cl = (.error e, st3) := by
      unfold Pwm.with_exported
      simp only [hexp, hcl, hu]
    refine ⟨by rw [hwe], fun hw hn => ?_⟩
    rw [hwe]
    have hrel := unexportChannel_release env st2 p.chip.number p.number hn hw
      (by rw [show PwmChip.unexportChannel env st2 ⟨p.chip.number⟩ p.number =
          Pwm.doUnexport env st2 p from rfl, hu])
    rw [show PwmChip.unexportChannel env st2 ⟨p.chip.number⟩ p.number =
      Pwm.doUnexport env st2 p from rfl, hu] at hrel
    exact hrel
  · intro st2 hcl
    unfold Pwm.with_exported
    simp only [hexp, hcl]

/-- Witness for C1 (amended): with no injected failures, a failing closure's
error is returned and the channel ends up unexported; a succeeding closure
makes `with_exported` return the unexport attempt's result. -/
theorem withExported_release_witness :
    (Pwm.with_exported envOk stBase pwm00 clBoom).1 =
      .error (.Unexpected "boom")
    ∧ (0, 0) ∉ (Pwm.with_exported envOk stBase pwm00 clBoom).2.exported
    ∧ Pwm.with_exported envOk stBase pwm00 clOk =
        Pwm.doUnexport envOk
          ((clOk ((Pwm.doExport envOk stBase pwm00).2)).2) pwm00 := by
  have h := withExported_release_and_error_propagation envOk stBase
    ((Pwm.doExport envOk stBase pwm00).2) pwm00 clBoom (by decide)
  have h2 := withExported_release_and_error_propagation envOk stBase
    ((Pwm.doExport envOk stBase pwm00).2) pwm00 clOk (by decide)
  have ha := h.1 (.Unexpected "boom")
    ((clBoom ((Pwm.doExport envOk stBase pwm00).2)).2) (by decide) (by decide)
  exact ⟨ha.1, ha.2 (by decide) (by decide),
    h2.2 ((clOk ((Pwm.doExport envOk stBase pwm00).2)).2) (by decide)⟩

/-! ## Claim C9: `set_duty_cycle` fraction-to-nanosecond mapping -/

theorem readFile_logOp (st : Sysfs) (op : FsOp) (f : FileId) :
    readFile (st.logOp op) f = readFile st f := rfl

theorem log2floorPos_spec : ∀ (fuel : Nat) (q : Rat) (acc e : Int),
    0 < q → pow2 e ≤ q → q < pow2 (e + 1) → e.natAbs < fuel →
    log2floorPos fuel q acc = acc + e := by
  intro fuel
  induction fuel with
  | zero => intro q acc e _ _ _ h; omega
  | succ fuel ih =>
    intro q acc e hq h1 h2 hf
    have h2ne : (2 : Rat) ≠ 0 := by norm_num
    rw [pow2] at h1 h2
    by_cases hlt : q < 1
    · have he : e < 0 := by
        by_contra hh
        push_neg at hh
        have hone : (1 : Rat) ≤ (2 : Rat) ^ e := by
          calc (1 : Rat) = (2 : Rat) ^ (0 : Int) := (zpow_zero 2).symm
          _ ≤ (2 : Rat) ^ e := zpow_le_zpow_right₀ (by norm_num) hh
        linarith
      have hih := ih (q * 2) (acc - 1) (e + 1) (by positivity)
        (by rw [pow2, zpow_add_one₀ h2ne]; linarith)
        (by rw [pow2, zpow_add_one₀ h2ne, zpow_add_one₀ h2ne]
            rw [zpow_add_one₀ h2ne] at h2; linarith)
        (by omega)
      simp only [log2floorPos, if_pos hlt]
      rw [hih]; ring
    · by_cases hge : 2 ≤ q
      · have he : 0 < e := by
          by_contra hh
          push_neg at hh
          have hle : ((2 : Rat) ^ (e + 1) : Rat) ≤ (2 : Rat) ^ (1 : Int) :=
            zpow_le_zpow_right₀ (by norm_num) (by omega)
          rw [zpow_one] at hle
          linarith
        have hih := ih (q / 2) (acc + 1) (e - 1) (by positivity)
          (by rw [pow2, zpow_sub_one₀ h2ne]
              have hinv : (2 : Rat)⁻¹ = 1 / 2 := by norm_num
              rw [hinv]; linarith)
          (by rw [pow2, show e - 1 + 1 = e by ring]
              rw [zpow_add_one₀ h2ne] at h2; linarith)
          (by omega)
        simp only [log2floorPos, if_neg hlt, if_pos hge]
        rw [hih]; ring
      · have he : e = 0 := by
          push_neg at hlt hge
          by_contra hne
          rcases lt_or_gt_of_ne hne with hneg | hpos
          · have hle : ((2 : Rat) ^ (e + 1) : Rat) ≤ (2 : Rat) ^ (0 : Int) :=
              zpow_le_zpow_right₀ (by norm_num) (by omega)
            rw [zpow_zero] at hle
            linarith
          · have hle : ((2 : Rat) ^ (1 : Int) : Rat) ≤ (2 : Rat) ^ e :=
              zpow_le_zpow_right₀ (by norm_num) (by omega)
            rw [zpow_one] at hle
            linarith
        simp only [log2floorPos, if_neg hlt, if_neg hge]
        omega

/-- Counterexample to C9 as stated.  With period `2^24 + 1 = 16777217`
(valid `u32`, not representable in binary32) and fraction `1.0`, the code
casts the period to `f32`, losing the last bit, and writes `16777216` to the
duty-cycle attribute (first conjunct) — while the exact
`round(fraction * period_ns)` is `16777217` (second conjunct).  So the
mapping is not the exact `round(fraction * period_ns)` in general. -/
theorem set_duty_cycle_precision_counterexample :
    (Pwm.set_duty_cycle envOk c9xst pwm00 1).2.log =
      [.openRead (pwmFilePath 0 0 "period") true,
       .openWrite (pwmFilePath 0 0 "duty_cycle") true,
       .write (pwmFilePath 0 0 "duty_cycle") "16777216" true]
    ∧ roundHalfAway ((1 : Rat) * (16777217 : Rat)) = 16777217
    ∧ dutyCycleNsOf 16777217 1 = 16777216 := by
  have hl1 : log2floorPos 300 (16777217 : Rat) 0 = 24 := by
    have h := log2floorPos_spec 300 (16777217 : Rat) 0 24 (by norm_num)
      (by norm_num [pow2]) (by norm_num [pow2]) (by norm_num)
    simpa using h
  have hl2 : log2floorPos 300 (16777216 : Rat) 0 = 24 := by
    have h := log2floorPos_spec 300 (16777216 : Rat) 0 24 (by norm_num)
      (by norm_num [pow2]) (by norm_num [pow2]) (by norm_num)
    simpa using h
  have hf1 : float32Round (16777217 : Rat) = 16777216 := by
    norm_num [float32Round, hl1, rndTiesEven, pow2]
  have hf2 : float32Round (16777216 : Rat) = 16777216 := by
    norm_num [float32Round, hl2, rndTiesEven, pow2]
  have hval : dutyCycleNsOf 16777217 1 = 16777216 := by
    norm_num [dutyCycleNsOf, hf1, hf2, roundHalfAway, asU32]
    decide
  refine ⟨?_, by norm_num [roundHalfAway], hval⟩
  have h1 : readFile c9xst
      (FileId.attr pwm00.chip.number pwm00.number "period") =
      some "16777217" := by decide
  have h2 : parseU32 (rustTrim "16777217") = some 16777217 := by decide
  have h3 : readFile c9xst
      (FileId.attr pwm00.chip.number pwm00.number "duty_cycle") =
      some "0" := by decide
  simp only [Pwm.set_duty_cycle, Pwm.get_period_ns, pwm_file_parse_u32,
    openAndRead, h1, h2]
  simp only [Pwm.set_duty_cycle_ns, pwm_file_wo, readFile_logOp, h3]
  simp only [writeAll, FileId.path, kernelWrite, Sysfs.logOp]
  have hw : pwmFilePath pwm00.chip.number pwm00.number "duty_cycle" ∉
      envOk.writeFails := by decide
  simp only [hval, if_neg hw]
  decide

/-- C9, amended.  `set_duty_cycle` computes the nanosecond value in binary32
arithmetic.  Whenever the period and the product are exactly representable
in binary32 (hypotheses `hf1`, `hf2`) and the rounded product is in `u32`
range, the computed value is exactly `round(fraction * period_ns)` (ties
away from zero), and the call reads the period attribute and writes that
value as decimal text to the duty-cycle attribute. -/
theorem set_duty_cycle_fraction_spec
    (env : Env) (st : Sysfs) (p : Pwm) (s d0 : String) (period : Nat)
    (frac : Rat)
    (hp : readFile st (FileId.attr p.chip.number p.number "period") = some s)
    (hparse : parseU32 (rustTrim s) = some period)
    (hd : readFile st (FileId.attr p.chip.number p.number "duty_cycle") =
      some d0)
    (hf1 : float32Round (period : Rat) = (period : Rat))
    (hf2 : float32Round ((period : Rat) * frac) = (period : Rat) * frac)
    (hr0 : 0 ≤ roundHalfAway (frac * (period : Rat)))
    (hr1 : roundHalfAway (frac * (period : Rat)) < 2 ^ 32) :
    dutyCycleNsOf period frac = (roundHalfAway (frac * (period : Rat))).toNat
    ∧ (Pwm.set_duty_cycle env st p frac).2.log =
        st.log ++
          [.openRead (pwmFilePath p.chip.number p.number "period") true,
           .openWrite (pwmFilePath p.chip.number p.number "duty_cycle") true,
           .write (pwmFilePath p.chip.number p.number "duty_cycle")
             (decRepr (roundHalfAway (frac * (period : Rat))).toNat)
             (decide (pwmFilePath p.chip.number p.number "duty_cycle" ∉
                env.writeFails))] := by
  have hval : dutyCycleNsOf period frac =
      (roundHalfAway (frac * (period : Rat))).toNat := by
    unfold dutyCycleNsOf
    rw [hf1, hf2, mul_comm (period : Rat) frac]
    unfold asU32
    rw [if_neg (by omega), if_neg (by omega)]
  refine ⟨hval, ?_⟩
  simp only [Pwm.set_duty_cycle, Pwm.get_period_ns, pwm_file_parse_u32,
    openAndRead, hp, hparse]
  simp only [Pwm.set_duty_cycle_ns, pwm_file_wo, readFile_logOp, hd]
  simp only [writeAll, FileId.path, kernelWrite, Sysfs.logOp]
  by_cases hw : pwmFilePath p.chip.number p.number "duty_cycle" ∈
      env.writeFails
  · simp [hw, hval, List.append_assoc]
  · simp [hw, hval, List.append_assoc]

/-- Witness for C9 (amended): with period 20000 ns and fraction `1/4` (both
exact in binary32), the computed value is 5000 and `"5000"` is written to
the duty-cycle attribute. -/
theorem set_duty_cycle_fraction_spec_witness :
    dutyCycleNsOf 20000 (1 / 4) = 5000
    ∧ (Pwm.set_duty_cycle envOk c9st pwm00 (1 / 4)).2.log =
        [.openRead (pwmFilePath 0 0 "period") true,
         .openWrite (pwmFilePath 0 0 "duty_cycle") true,
         .write (pwmFilePath 0 0 "duty_cycle") "5000" true] := by
  have hl : log2floorPos 300 (20000 : Rat) 0 = 14 := by
    have h := log2floorPos_spec 300 (20000 : Rat) 0 14 (by norm_num)
      (by norm_num [pow2]) (by norm_num [pow2]) (by norm_num)
    simpa using h
  have hl5 : log2floorPos 300 (5000 : Rat) 0 = 12 := by
    have h := log2floorPos_spec 300 (5000 : Rat) 0 12 (by norm_num)
      (by norm_num [pow2]) (by norm_num [pow2]) (by norm_num)
    simpa using h
  have hf1 : float32Round ((20000 : Nat) : Rat) = ((20000 : Nat) : Rat) := by
    norm_num [float32Round, hl, rndTiesEven, pow2]
  have hf2 : float32Round (((20000 : Nat) : Rat) * (1 / 4)) =
      ((20000 : Nat) : Rat) * (1 / 4) := by
    have h5 : (((20000 : Nat) : Rat) * (1 / 4)) = 5000 := by norm_num
    rw [h5]
    norm_num [float32Round, hl5, rndTiesEven, pow2]
  have hr : roundHalfAway (1 / 4 * ((20000 : Nat) : Rat)) = 5000 := by
    norm_num [roundHalfAway]
  have h := set_duty_cycle_fraction_spec envOk c9st pwm00 "20000\n" "0" 20000
    (1 / 4) (by decide) (by decide) (by decide) hf1 hf2
    (by rw [hr]; norm_num) (by rw [hr]; norm_num)
  constructor
  · rw [h.1, hr]; decide
  · rw [h.2, hr]; decide
